import Mathlib

/-!
# Verification of the collect-normalize-deliver pipeline
(`scraper/scrape_and_push.py`)

Shallow embedding of the scraper module: the Collector (`run_snscrape`),
the Deliverer (`push_tweets`) and the orchestration (`main`).

Modelling conventions:
* JSON values are the inductive `JValue`; Python `None` is `JValue.null`.
  JSON objects are association lists; `json.loads` never produces duplicate
  keys (later bindings overwrite earlier ones while parsing), so lookup of
  the first binding coincides with Python dict lookup.
* The external `snscrape` child process is a black box.  Its observable
  behaviour is a `SpawnResult`: either the spawn itself fails
  (`FileNotFoundError` or another exception from `Popen`), or it runs and
  yields a list of stdout lines together with stderr text and an exit code.
  Each stdout line is modelled after `json.loads(line.strip())`:
  `none` when `json.loads` raises `JSONDecodeError`, `some v` when it
  returns the value `v`.
* Python `dict.get` on a non-dict raises `AttributeError`; fallible steps
  live in `Except String`.
* `list.sort(key=..., reverse=True)` compares keys with Python `<`, which
  raises `TypeError` on values of incomparable types (`None` is comparable
  with nothing, not even itself).  The sort is modelled as a stable binary
  insertion in `Except`: it performs no comparison on lists of length ≤ 1
  and raises as soon as an incomparable pair of keys is compared, matching
  CPython's observable behaviour on the key types JSON can produce here
  (null / bool / number / string); keys that are JSON arrays or objects are
  modelled as incomparable.
* HTTP delivery via `requests.post` is a black box `HttpOutcome`: either a
  `requests.exceptions.RequestException` (timeout, connection failure,
  too-many-redirects, ...) or a final response with a status code and a
  body, the body given as `none` when it is not valid JSON (so that
  `response.json()` raises) and `some v` when it parses to `v`.
  `response.raise_for_status()` raises exactly when `400 ≤ status < 600`.
-/

namespace WeatherUpdates

/-- A JSON value, as produced by `json.loads`.  Numbers are modelled as
integers (no claim depends on fractional values). -/
inductive JValue where
  | null
  | bool (b : Bool)
  | num (n : Int)
  | str (s : String)
  | arr (elems : List JValue)
  | obj (fields : List (String × JValue))
deriving Repr, Inhabited

/-- Python `d.get(k)`: `AttributeError` when `d` is not a dict, otherwise
the value bound to `k`, or `None` when the key is absent. -/
def jget (v : JValue) (k : String) : Except String JValue :=
  match v with
  | .obj fields => .ok ((fields.lookup k).getD .null)
  | _ => .error "AttributeError"

/-- Python `d.get(k, dflt)`: `AttributeError` when `d` is not a dict,
otherwise the value bound to `k`, or `dflt` when the key is absent. -/
def jgetD (v : JValue) (k : String) (dflt : JValue) : Except String JValue :=
  match v with
  | .obj fields => .ok ((fields.lookup k).getD dflt)
  | _ => .error "AttributeError"

/-- One normalized record, the dict built at lines 38-46 of
`scrape_and_push.py`.  Every field is a `JValue`; fields missing from the
source line hold `JValue.null`, exactly as `dict.get` yields `None`. -/
structure Tweet where
  id : JValue
  date : JValue
  content : JValue
  url : JValue
  authorName : JValue
  authorHandle : JValue
  raw : JValue
deriving Repr, Inhabited

/-- The per-line normalization (the body of the `for line in proc.stdout`
loop after `json.loads` succeeded): build the record dict in evaluation
order.  `tweet_data.get("user", {})` is evaluated once per author field,
as in the source. -/
def processLine (v : JValue) : Except String Tweet := do
  let id ← jget v "id"
  let date ← jget v "date"
  let content ← jget v "content"
  let url ← jget v "url"
  let user1 ← jgetD v "user" (.obj [])
  let authorName ← jget user1 "displayname"
  let user2 ← jgetD v "user" (.obj [])
  let authorHandle ← jget user2 "username"
  pure { id := id, date := date, content := content, url := url,
         authorName := authorName, authorHandle := authorHandle, raw := v }

/-- The collection loop (lines 34-51): a line whose `json.loads` failed
(`none`) is skipped silently; a line whose processing raised
(`processLine` errs) is logged and skipped; every successfully processed
line appends one record. -/
def collectTweets : List (Option JValue) → List Tweet
  | [] => []
  | none :: rest => collectTweets rest
  | some v :: rest =>
    match processLine v with
    | .ok t => t :: collectTweets rest
    | .error _ => collectTweets rest

/-- The comparison class of a JSON value under Python `<`: booleans are
the integers 0 and 1 and compare with numbers; strings compare with
strings; `None` is comparable with nothing (not even itself); arrays and
objects are modelled as incomparable (see the module docstring). -/
def pyKey : JValue → Option (Int ⊕ String)
  | .bool b => some (.inl (if b then 1 else 0))
  | .num n => some (.inl n)
  | .str s => some (.inr s)
  | _ => none

/-- Python `<` on strings: lexicographic comparison of the code-point
sequences, a shorter string preceding its extensions. -/
def pyStrLt : List Char → List Char → Bool
  | [], [] => false
  | [], _ :: _ => true
  | _ :: _, [] => false
  | a :: as, b :: bs =>
    if a.toNat < b.toNat then true
    else if b.toNat < a.toNat then false
    else pyStrLt as bs

/-- Python `<` on the values a JSON `date` field can hold: numeric or
lexicographic comparison inside one comparison class, `TypeError`
otherwise. -/
def pyLt (a b : JValue) : Except String Bool :=
  match pyKey a, pyKey b with
  | some (.inl x), some (.inl y) => .ok (decide (x < y))
  | some (.inr x), some (.inr y) => .ok (pyStrLt x.data y.data)
  | _, _ => .error "TypeError"

/-- Stable descending insertion by the sort key `x["date"]`: `x` is placed
before the first element `y` with `y["date"] < x["date"]`; a `TypeError`
raised by a comparison propagates. -/
def insertByDateDesc (x : Tweet) : List Tweet → Except String (List Tweet)
  | [] => .ok [x]
  | y :: ys => do
    let b ← pyLt y.date x.date
    if b then
      pure (x :: y :: ys)
    else do
      let rest ← insertByDateDesc x ys
      pure (y :: rest)

/-- `tweets.sort(key=lambda x: x["date"], reverse=True)` (line 62):
stable sort, descending by `date`, raising `TypeError` as soon as an
incomparable pair of keys is compared. -/
def sortByDateDesc : List Tweet → Except String (List Tweet)
  | [] => .ok []
  | x :: xs => do
    let rest ← sortByDateDesc xs
    insertByDateDesc x rest

/-- The observable behaviour of launching the external collection
mechanism (`subprocess.Popen` at line 27). -/
inductive SpawnResult where
  | fileNotFound
  | spawnError (msg : String)
  | proc (stdoutLines : List (Option JValue)) (stderr : String) (returncode : Int)

/-- The Collector (`run_snscrape`, lines 19-70): a total function — no
exception escapes.  `FileNotFoundError` and any other spawn exception
return `[]`; a non-zero exit status discards everything collected and
returns `[]`; a `TypeError` from the sort is caught by the outer
`except Exception` and returns `[]`; otherwise the sorted list is
truncated to 200 entries. -/
def run_snscrape : SpawnResult → List Tweet
  | .fileNotFound => []
  | .spawnError _ => []
  | .proc lines _stderr rc =>
    let tweets := collectTweets lines
    if rc ≠ 0 then []
    else
      match sortByDateDesc tweets with
      | .ok sorted => sorted.take 200
      | .error _ => []

/-- Python truthiness of `os.environ.get(...)`: `None` (unset) and the
empty string are falsy. -/
def truthy : Option String → Bool
  | none => false
  | some s => decide (s ≠ "")

/-- Serialization of one record as sent in the batch payload: the dict of
lines 38-46, JSON-encoded by `json.dumps` with its keys in insertion
order. -/
def tweetToJson (t : Tweet) : JValue :=
  .obj [("id", t.id), ("date", t.date), ("content", t.content), ("url", t.url),
        ("authorName", t.authorName), ("authorHandle", t.authorHandle), ("raw", t.raw)]

/-- The keys of a serialized JSON object. -/
def jsonKeys : JValue → List String
  | .obj fields => fields.map Prod.fst
  | _ => []

/-- Externally observable side effects of a run. -/
inductive Event where
  | spawnCollector
  | httpRequest (url : String) (token : String) (body : JValue)
deriving Repr

/-- Recognises an HTTP request event. -/
def isRequest : Event → Bool
  | .httpRequest _ _ _ => true
  | _ => false

/-- The observable behaviour of `requests.post` (line 88): either a
`requests.exceptions.RequestException` (timeout, connection failure, ...)
or a final response.  The body is `none` when it is not valid JSON. -/
inductive HttpOutcome where
  | transportError (msg : String)
  | response (status : Nat) (body : Option JValue)

/-- What the Deliverer returns and does: the boolean returned by
`push_tweets`, the `inserted` count printed on success (the argument of
`result.get('inserted', 0)` in the success log line), and the HTTP
requests performed. -/
structure PushResult where
  ok : Bool
  reported : Option JValue
  events : List Event
deriving Repr

/-- The Deliverer (`push_tweets`, lines 72-106).  Missing or empty
credentials return failure before any request.  Otherwise exactly one
request is made carrying the token header and the JSON body
`{"tweets": [...]}`.  A `RequestException` (transport) returns failure;
`raise_for_status()` turns every status in 400-599 into failure;
`response.json()` failing on a non-JSON body, and `result.get` raising on
a body that is not a JSON object, are caught by the handlers and return
failure; otherwise `inserted` (default 0) is reported and the result is
success. -/
def push_tweets (url token : Option String) (tweets : List Tweet)
    (net : HttpOutcome) : PushResult :=
  match url, token with
  | some u, some t =>
    if u = "" ∨ t = "" then { ok := false, reported := none, events := [] }
    else
      let payload := JValue.obj [("tweets", .arr (tweets.map tweetToJson))]
      let evs := [Event.httpRequest u t payload]
      match net with
      | .transportError _ => { ok := false, reported := none, events := evs }
      | .response status body =>
        if 400 ≤ status ∧ status < 600 then
          { ok := false, reported := none, events := evs }
        else
          match body with
          | some (.obj fields) =>
            { ok := true, reported := some ((fields.lookup "inserted").getD (.num 0)),
              events := evs }
          | _ => { ok := false, reported := none, events := evs }
  | _, _ => { ok := false, reported := none, events := [] }

/-- The orchestration (`main`, lines 108-137): process exit status and the
events of the run.  Missing `INGEST_URL` or `INGEST_TOKEN` exits 1 before
the Collector is started; an empty collection ends the run normally
("No tweets scraped."); otherwise one delivery is attempted and its
failure exits 1. -/
def main_run (url token : Option String) (spawn : SpawnResult)
    (net : HttpOutcome) : Nat × List Event :=
  if truthy url = false then (1, [])
  else if truthy token = false then (1, [])
  else
    let tweets := run_snscrape spawn
    let evs := [Event.spawnCollector]
    if tweets.isEmpty then (0, evs)
    else
      let pr := push_tweets url token tweets net
      if pr.ok then (0, evs ++ pr.events) else (1, evs ++ pr.events)

/-! ## Order and membership lemmas -/

/-- The adjacent-pair order of the sorted output: the Python comparison
`a["date"] < b["date"]` is answered `False`, i.e. the timestamp of `b`
does not exceed the timestamp of `a` (non-increasing pair). -/
def dateLe (a b : Tweet) : Prop :=
  pyLt a.date b.date = .ok false

theorem exbind_ok {ε α β : Type} (a : α) (f : α → Except ε β) :
    (Except.ok a >>= f) = f a := rfl

theorem exbind_error {ε α β : Type} (e : ε) (f : α → Except ε β) :
    ((Except.error e : Except ε α) >>= f) = .error e := rfl

theorem exmap_ok {ε α β : Type} (f : α → β) (a : α) :
    (f <$> (Except.ok a : Except ε α)) = .ok (f a) := rfl

theorem exmap_error {ε α β : Type} (f : α → β) (e : ε) :
    (f <$> (Except.error e : Except ε α)) = .error e := rfl

theorem expure {ε α : Type} (a : α) : (pure a : Except ε α) = .ok a := rfl

theorem pyStrLt_asymm {a b : List Char} (h : pyStrLt a b = true) :
    pyStrLt b a = false := by
  induction a generalizing b with
  | nil =>
    cases b with
    | nil => simp [pyStrLt] at h
    | cons c cs => simp [pyStrLt]
  | cons x xs ih =>
    cases b with
    | nil => simp [pyStrLt] at h
    | cons y ys =>
      by_cases hxy : x.toNat < y.toNat
      · have hyx : ¬ y.toNat < x.toNat := by omega
        simp [pyStrLt, hxy, hyx]
      · by_cases hyx : y.toNat < x.toNat
        · simp [pyStrLt, hxy, hyx] at h
        · simp only [pyStrLt, if_neg hxy, if_neg hyx] at h
          simp only [pyStrLt, if_neg hyx, if_neg hxy]
          exact ih h

theorem pyLt_asymm {a b : JValue} (h : pyLt a b = .ok true) :
    pyLt b a = .ok false := by
  rcases hka : pyKey a with _ | ka
  · simp [pyLt, hka] at h
  rcases hkb : pyKey b with _ | kb
  · rcases ka with x | x <;> simp [pyLt, hka, hkb] at h
  rcases ka with x | x <;> rcases kb with y | y <;>
    simp [pyLt, hka, hkb] at h ⊢
  · omega
  · exact pyStrLt_asymm h

theorem insertByDateDesc_ok_shape {x : Tweet} {l m : List Tweet}
    (h : insertByDateDesc x l = .ok m) :
    (∃ t, m = x :: t) ∨ ∃ z zs t, l = z :: zs ∧ m = z :: t := by
  cases l with
  | nil =>
    simp only [insertByDateDesc, Except.ok.injEq] at h
    exact Or.inl ⟨[], h.symm⟩
  | cons y ys =>
    cases hc : pyLt y.date x.date with
    | error e => simp [insertByDateDesc, hc, exbind_error] at h
    | ok b =>
      cases b with
      | true =>
        simp only [insertByDateDesc, hc, exbind_ok, if_true, expure,
          Except.ok.injEq] at h
        exact Or.inl ⟨y :: ys, h.symm⟩
      | false =>
        cases hr : insertByDateDesc x ys with
        | error e =>
          simp [insertByDateDesc, hc, hr, exbind_ok, exmap_error] at h
        | ok rest =>
          simp only [insertByDateDesc, hc, hr, exbind_ok, exmap_ok, expure,
            if_false, Bool.false_eq_true, ite_false, Except.ok.injEq] at h
          exact Or.inr ⟨y, ys, rest, rfl, h.symm⟩

theorem insertByDateDesc_chain {x : Tweet} {l m : List Tweet}
    (hl : List.Chain' dateLe l) (h : insertByDateDesc x l = .ok m) :
    List.Chain' dateLe m := by
  induction l generalizing m with
  | nil =>
    simp only [insertByDateDesc, Except.ok.injEq] at h
    subst h
    simp
  | cons y ys ih =>
    cases hc : pyLt y.date x.date with
    | error e => simp [insertByDateDesc, hc, exbind_error] at h
    | ok b =>
      cases b with
      | true =>
        simp only [insertByDateDesc, hc, exbind_ok, if_true, expure,
          Except.ok.injEq] at h
        subst h
        exact List.chain'_cons.mpr ⟨pyLt_asymm hc, hl⟩
      | false =>
        cases hr : insertByDateDesc x ys with
        | error e =>
          simp [insertByDateDesc, hc, hr, exbind_ok, exmap_error] at h
        | ok rest =>
          simp only [insertByDateDesc, hc, hr, exbind_ok, exmap_ok, expure,
            if_false, Bool.false_eq_true, ite_false, Except.ok.injEq] at h
          subst h
          have hrest : List.Chain' dateLe rest := ih hl.tail hr
          refine List.chain'_cons'.mpr ⟨?_, hrest⟩
          intro z hz
          rcases insertByDateDesc_ok_shape hr with ⟨t, rfl⟩ | ⟨w, ws, t, hys, rfl⟩
          · simp only [List.head?_cons, Option.mem_def, Option.some.injEq] at hz
            subst hz
            exact hc
          · simp only [List.head?_cons, Option.mem_def, Option.some.injEq] at hz
            subst hz
            rw [hys] at hl
            exact (List.chain'_cons.mp hl).1

theorem sortByDateDesc_chain {l m : List Tweet}
    (h : sortByDateDesc l = .ok m) : List.Chain' dateLe m := by
  induction l generalizing m with
  | nil =>
    simp only [sortByDateDesc, Except.ok.injEq] at h
    subst h
    simp
  | cons x xs ih =>
    cases hr : sortByDateDesc xs with
    | error e => simp [sortByDateDesc, hr, exbind_error] at h
    | ok rest =>
      simp only [sortByDateDesc, hr, exbind_ok] at h
      exact insertByDateDesc_chain (ih hr) h

theorem insertByDateDesc_mem {x : Tweet} {l m : List Tweet}
    (h : insertByDateDesc x l = .ok m) {t : Tweet} (ht : t ∈ m) :
    t = x ∨ t ∈ l := by
  induction l generalizing m with
  | nil =>
    simp only [insertByDateDesc, Except.ok.injEq] at h
    subst h
    simp at ht
    exact Or.inl ht
  | cons y ys ih =>
    cases hc : pyLt y.date x.date with
    | error e => simp [insertByDateDesc, hc, exbind_error] at h
    | ok b =>
      cases b with
      | true =>
        simp only [insertByDateDesc, hc, exbind_ok, if_true, expure,
          Except.ok.injEq] at h
        subst h
        simp only [List.mem_cons] at ht
        rcases ht with rfl | rfl | hmem
        · exact Or.inl rfl
        · exact Or.inr (List.mem_cons_self _ _)
        · exact Or.inr (List.mem_cons_of_mem _ hmem)
      | false =>
        cases hr : insertByDateDesc x ys with
        | error e =>
          simp [insertByDateDesc, hc, hr, exbind_ok, exmap_error] at h
        | ok rest =>
          simp only [insertByDateDesc, hc, hr, exbind_ok, exmap_ok, expure,
            if_false, Bool.false_eq_true, ite_false, Except.ok.injEq] at h
          subst h
          rcases List.mem_cons.mp ht with rfl | hmem
          · exact Or.inr (List.mem_cons_self _ _)
          · rcases ih hr hmem with rfl | hys
            · exact Or.inl rfl
            · exact Or.inr (List.mem_cons_of_mem _ hys)

theorem sortByDateDesc_mem {l m : List Tweet}
    (h : sortByDateDesc l = .ok m) {t : Tweet} (ht : t ∈ m) : t ∈ l := by
  induction l generalizing m with
  | nil =>
    simp only [sortByDateDesc, Except.ok.injEq] at h
    subst h
    simp at ht
  | cons x xs ih =>
    cases hr : sortByDateDesc xs with
    | error e => simp [sortByDateDesc, hr, exbind_error] at h
    | ok rest =>
      simp only [sortByDateDesc, hr, exbind_ok] at h
      rcases insertByDateDesc_mem h ht with rfl | hmem
      · exact List.mem_cons_self _ _
      · exact List.mem_cons_of_mem _ (ih hr hmem)

/-! ## Normalization and collection lemmas -/

theorem processLine_ok_cases {v : JValue} {t : Tweet}
    (h : processLine v = .ok t) :
    ∃ fields ufields,
      v = .obj fields ∧
      (fields.lookup "user").getD (.obj []) = .obj ufields ∧
      t = { id := (fields.lookup "id").getD .null,
            date := (fields.lookup "date").getD .null,
            content := (fields.lookup "content").getD .null,
            url := (fields.lookup "url").getD .null,
            authorName := (ufields.lookup "displayname").getD .null,
            authorHandle := (ufields.lookup "username").getD .null,
            raw := v } := by
  cases v with
  | null => simp [processLine, jget, exbind_error] at h
  | bool b => simp [processLine, jget, exbind_error] at h
  | num n => simp [processLine, jget, exbind_error] at h
  | str s => simp [processLine, jget, exbind_error] at h
  | arr xs => simp [processLine, jget, exbind_error] at h
  | obj fields =>
    cases hu : (fields.lookup "user").getD (.obj []) with
    | null =>
      simp [processLine, jget, jgetD, hu, exbind_ok, exbind_error] at h
    | bool b =>
      simp [processLine, jget, jgetD, hu, exbind_ok, exbind_error] at h
    | num n =>
      simp [processLine, jget, jgetD, hu, exbind_ok, exbind_error] at h
    | str s =>
      simp [processLine, jget, jgetD, hu, exbind_ok, exbind_error] at h
    | arr xs =>
      simp [processLine, jget, jgetD, hu, exbind_ok, exbind_error] at h
    | obj ufields =>
      refine ⟨fields, ufields, rfl, hu, ?_⟩
      simp only [processLine, jget, jgetD, hu, exbind_ok, expure,
        Except.ok.injEq] at h
      exact h.symm

theorem processLine_raw {v : JValue} {t : Tweet}
    (h : processLine v = .ok t) : t.raw = v := by
  obtain ⟨fields, ufields, hv, hu, ht⟩ := processLine_ok_cases h
  rw [ht]

theorem processLine_no_user {fields : List (String × JValue)} {t : Tweet}
    (h : processLine (.obj fields) = .ok t)
    (hu : fields.lookup "user" = none) :
    t.authorName = .null ∧ t.authorHandle = .null := by
  obtain ⟨f, uf, hv, huser, ht⟩ := processLine_ok_cases h
  obtain rfl : fields = f := by injection hv
  rw [hu] at huser
  obtain rfl : ([] : List (String × JValue)) = uf := by
    simpa using huser
  rw [ht]
  exact ⟨rfl, rfl⟩

theorem collectTweets_append (l1 l2 : List (Option JValue)) :
    collectTweets (l1 ++ l2) = collectTweets l1 ++ collectTweets l2 := by
  induction l1 with
  | nil => rfl
  | cons a rest ih =>
    cases a with
    | none => simpa [collectTweets] using ih
    | some v =>
      cases hp : processLine v with
      | ok t => simp [collectTweets, hp, ih]
      | error e => simp [collectTweets, hp, ih]

theorem collectTweets_mem {lines : List (Option JValue)} {t : Tweet}
    (ht : t ∈ collectTweets lines) :
    ∃ v, Option.some v ∈ lines ∧ processLine v = .ok t := by
  induction lines with
  | nil => simp [collectTweets] at ht
  | cons a rest ih =>
    cases a with
    | none =>
      simp only [collectTweets] at ht
      obtain ⟨v, hv, hp⟩ := ih ht
      exact ⟨v, List.mem_cons_of_mem _ hv, hp⟩
    | some v =>
      cases hp : processLine v with
      | error e =>
        simp only [collectTweets, hp] at ht
        obtain ⟨w, hw, hq⟩ := ih ht
        exact ⟨w, List.mem_cons_of_mem _ hw, hq⟩
      | ok u =>
        simp only [collectTweets, hp] at ht
        rcases List.mem_cons.mp ht with rfl | hmem
        · exact ⟨v, List.mem_cons_self _ _, hp⟩
        · obtain ⟨w, hw, hq⟩ := ih hmem
          exact ⟨w, List.mem_cons_of_mem _ hw, hq⟩

/-- Any non-empty Collector result comes from the fully successful path:
the spawn succeeded, the process exited 0 and the sort raised no
`TypeError`; the result is the sorted list truncated to 200. -/
theorem run_snscrape_ne_nil {inp : SpawnResult} (h : run_snscrape inp ≠ []) :
    ∃ lines stderr sorted,
      inp = .proc lines stderr 0 ∧
      sortByDateDesc (collectTweets lines) = .ok sorted ∧
      run_snscrape inp = sorted.take 200 := by
  cases inp with
  | fileNotFound => simp [run_snscrape] at h
  | spawnError msg => simp [run_snscrape] at h
  | proc lines stderr rc =>
    rcases eq_or_ne rc 0 with rfl | hrc
    · cases hs : sortByDateDesc (collectTweets lines) with
      | error e => exact absurd (by simp [run_snscrape, hs]) h
      | ok sorted =>
        exact ⟨lines, stderr, sorted, rfl, hs, by simp [run_snscrape, hs]⟩
    · exact absurd (by simp [run_snscrape, hrc]) h

/-! ## Deliverer and orchestration lemmas -/

theorem truthy_eq_true {o : Option String} (h : truthy o = true) :
    ∃ s, o = some s ∧ s ≠ "" := by
  cases o with
  | none => simp [truthy] at h
  | some s => exact ⟨s, rfl, by simpa [truthy] using h⟩

/-- With both credentials present and non-empty, the Deliverer performs
exactly one HTTP request, whatever the network does: the token header and
the JSON body `{"tweets": [...]}`. -/
theorem push_tweets_events (u t : String) (tweets : List Tweet)
    (net : HttpOutcome) (hu : u ≠ "") (ht : t ≠ "") :
    (push_tweets (some u) (some t) tweets net).events =
      [Event.httpRequest u t (.obj [("tweets", .arr (tweets.map tweetToJson))])] := by
  have hcond : ¬(u = "" ∨ t = "") := by simp [hu, ht]
  cases net with
  | transportError msg => simp [push_tweets, hcond]
  | response status body =>
    by_cases hsf : 400 ≤ status ∧ status < 600
    · simp [push_tweets, hcond, hsf]
    · cases body with
      | none => simp [push_tweets, hcond, hsf]
      | some v => cases v <;> simp [push_tweets, hcond, hsf]

/-! ## The claims -/

/-- C1: for every behaviour of the external collection process, the
Collector returns at most 200 records, and whenever it returns two or
more records every adjacent pair is ordered by timestamp non-increasing
(most recent first): on success the collected records are sorted by
`date` descending and truncated to the first 200 entries. -/
theorem collector_bounded_and_sorted (inp : SpawnResult) :
    (run_snscrape inp).length ≤ 200 ∧
    List.Chain' dateLe (run_snscrape inp) := by
  by_cases h : run_snscrape inp = []
  · rw [h]
    simp
  · obtain ⟨lines, stderr, sorted, rfl, hs, hrun⟩ := run_snscrape_ne_nil h
    rw [hrun]
    exact ⟨List.length_take_le 200 sorted, (sortByDateDesc_chain hs).take 200⟩

/-- Concrete instantiation of `collector_bounded_and_sorted`: two valid
lines with string dates. -/
theorem collector_bounded_and_sorted_witness :
    (run_snscrape (.proc
      [some (.obj [("id", .num 1), ("date", .str "2025-10-27")]),
       some (.obj [("id", .num 2), ("date", .str "2025-10-28")])] "" 0)).length ≤ 200 ∧
    List.Chain' dateLe (run_snscrape (.proc
      [some (.obj [("id", .num 1), ("date", .str "2025-10-27")]),
       some (.obj [("id", .num 2), ("date", .str "2025-10-28")])] "" 0)) :=
  collector_bounded_and_sorted (.proc
    [some (.obj [("id", .num 1), ("date", .str "2025-10-27")]),
     some (.obj [("id", .num 2), ("date", .str "2025-10-28")])] "" 0)

/-- C2: a non-zero exit status of the external process makes the Collector
discard every partially-collected record and return the empty list,
however many lines parsed successfully (total-failure policy). -/
theorem collector_nonzero_exit_empty (lines : List (Option JValue))
    (stderr : String) (rc : Int) (h : rc ≠ 0) :
    run_snscrape (.proc lines stderr rc) = [] := by
  simp [run_snscrape, h]

/-- Concrete instantiation of `collector_nonzero_exit_empty`: one valid
line (N = 1 > 0) and exit status 1. -/
theorem collector_nonzero_exit_empty_witness :
    (collectTweets [some (.obj [("id", .num 1), ("date", .str "2025-10-27")])]).length = 1 ∧
    run_snscrape (.proc [some (.obj [("id", .num 1), ("date", .str "2025-10-27")])]
      "snscrape error" 1) = [] :=
  ⟨rfl, collector_nonzero_exit_empty _ _ 1 (by decide)⟩

/-- C5: a line that is not valid JSON, or whose processing raises, is
excluded from the result, and the lines before and after it are collected
exactly as they otherwise would be — collection is never aborted for one
bad record. -/
theorem collector_skips_bad_line (pre post : List (Option JValue))
    (ln : Option JValue)
    (h : ln = none ∨ ∃ v e, ln = some v ∧ processLine v = .error e) :
    collectTweets (pre ++ ln :: post) = collectTweets pre ++ collectTweets post := by
  have hln : collectTweets (ln :: post) = collectTweets post := by
    rcases h with rfl | ⟨v, e, rfl, hp⟩
    · rfl
    · simp [collectTweets, hp]
  rw [collectTweets_append, hln]

/-- Concrete instantiation of `collector_skips_bad_line`: a malformed line
between two valid ones. -/
theorem collector_skips_bad_line_witness :
    collectTweets ([some (.obj [("id", .num 1), ("date", .str "2025-10-27")])] ++
        none :: [some (.obj [("id", .num 2), ("date", .str "2025-10-28")])]) =
      collectTweets [some (.obj [("id", .num 1), ("date", .str "2025-10-27")])] ++
      collectTweets [some (.obj [("id", .num 2), ("date", .str "2025-10-28")])] :=
  collector_skips_bad_line _ _ none (Or.inl rfl)

/-- C10: when the process exits 0 but the sort of the collected records
raises a `TypeError` (for instance one record's line lacks `date`, giving
a `None` key, while another carries a string date), the catch-all handler
absorbs the failure and the whole run's records are discarded: the
Collector returns the empty list. -/
theorem sort_typeerror_discards_run (lines : List (Option JValue))
    (stderr e : String)
    (h : sortByDateDesc (collectTweets lines) = .error e) :
    run_snscrape (.proc lines stderr 0) = [] := by
  simp [run_snscrape, h]

/-- Concrete instantiation of `sort_typeerror_discards_run`: one record
with a string date and one whose line lacks the `date` field. -/
theorem sort_typeerror_discards_run_witness :
    sortByDateDesc (collectTweets
      [some (.obj [("id", .num 1), ("date", .str "2025-10-27")]),
       some (.obj [("id", .num 2)])]) = .error "TypeError" ∧
    run_snscrape (.proc
      [some (.obj [("id", .num 1), ("date", .str "2025-10-27")]),
       some (.obj [("id", .num 2)])] "" 0) = [] :=
  ⟨rfl, sort_typeerror_discards_run _ "" "TypeError" rfl⟩

/-- A source line whose author sub-structure is missing. -/
def c4Line : JValue := .obj [("id", .num 5), ("date", .str "2025-10-27")]

/-- The record the Collector produces from `c4Line`. -/
def c4Tweet : Tweet :=
  { id := .num 5, date := .str "2025-10-27", content := .null, url := .null,
    authorName := .null, authorHandle := .null, raw := c4Line }

/-- C4: every record in the Collector's output is serialized with exactly
the fields id, date, content, url, authorName, authorHandle and raw (so
id, the link field `url` and raw are always carried); `raw` is the
complete unmodified parsed JSON object of the record's source line, and
the author fields are taken from the nested `user` sub-structure — when
that sub-structure is missing they hold the null value (the serialized
key is present, its value absent). -/
theorem record_serialization_invariants (lines : List (Option JValue))
    (stderr : String) (rc : Int) (t : Tweet)
    (h : t ∈ run_snscrape (.proc lines stderr rc)) :
    jsonKeys (tweetToJson t) =
      ["id", "date", "content", "url", "authorName", "authorHandle", "raw"] ∧
    (∃ v, Option.some v ∈ lines ∧ processLine v = .ok t ∧ t.raw = v) ∧
    (∀ fields, t.raw = .obj fields → fields.lookup "user" = none →
      t.authorName = .null ∧ t.authorHandle = .null) := by
  have hne : run_snscrape (.proc lines stderr rc) ≠ [] := by
    intro he
    rw [he] at h
    exact List.not_mem_nil t h
  obtain ⟨l2, s2, sorted, heq, hs, hrun⟩ := run_snscrape_ne_nil hne
  obtain ⟨rfl, rfl, rfl⟩ : lines = l2 ∧ stderr = s2 ∧ rc = 0 := by
    injection heq with a b c
    exact ⟨a, b, c⟩
  rw [hrun] at h
  have hcol : t ∈ collectTweets lines :=
    sortByDateDesc_mem hs (List.mem_of_mem_take h)
  obtain ⟨v, hv, hp⟩ := collectTweets_mem hcol
  refine ⟨rfl, ⟨v, hv, hp, processLine_raw hp⟩, ?_⟩
  intro fields hraw hu
  have hv2 : v = .obj fields := by
    rw [← processLine_raw hp, hraw]
  rw [hv2] at hp
  exact processLine_no_user hp hu

/-- Concrete instantiation of `record_serialization_invariants`: a single
line with no `user` sub-structure. -/
theorem record_serialization_invariants_witness :
    jsonKeys (tweetToJson c4Tweet) =
      ["id", "date", "content", "url", "authorName", "authorHandle", "raw"] ∧
    (∃ v, Option.some v ∈ [some c4Line] ∧ processLine v = .ok c4Tweet ∧
      c4Tweet.raw = v) ∧
    (∀ fields, c4Tweet.raw = .obj fields → fields.lookup "user" = none →
      c4Tweet.authorName = .null ∧ c4Tweet.authorHandle = .null) := by
  have hrun : run_snscrape (.proc [some c4Line] "" 0) = [c4Tweet] := rfl
  have h : c4Tweet ∈ run_snscrape (.proc [some c4Line] "" 0) := by
    rw [hrun]
    exact List.mem_singleton_self _
  exact record_serialization_invariants [some c4Line] "" 0 c4Tweet h

/-- C8: `run_snscrape` is a total function of the observable process
behaviour — no exception escapes it — and every failure path converges on
the empty list: a non-empty result can only arise when the spawn
succeeded (ruling out the missing-executable and spawn-exception paths),
the process exited 0 and the sort raised nothing, so each failure path
(`fileNotFound`, `spawnError`, non-zero exit, sort `TypeError`) returns
`[]`. -/
theorem collector_failures_return_empty (inp : SpawnResult)
    (h : run_snscrape inp ≠ []) :
    ∃ lines stderr sorted,
      inp = .proc lines stderr 0 ∧
      sortByDateDesc (collectTweets lines) = .ok sorted ∧
      run_snscrape inp = sorted.take 200 :=
  run_snscrape_ne_nil h

/-- Concrete instantiation of `collector_failures_return_empty`: a run
with one valid line and exit status 0. -/
theorem collector_failures_return_empty_witness :
    ∃ lines stderr sorted,
      SpawnResult.proc [some (.obj [("id", .num 7), ("date", .str "2025-10-27")])] "" 0
        = .proc lines stderr 0 ∧
      sortByDateDesc (collectTweets lines) = .ok sorted ∧
      run_snscrape (.proc [some (.obj [("id", .num 7), ("date", .str "2025-10-27")])] "" 0)
        = sorted.take 200 := by
  refine collector_failures_return_empty _ ?_
  intro h
  have h1 : (run_snscrape
      (.proc [some (.obj [("id", .num 7), ("date", .str "2025-10-27")])] "" 0)).length
      = 1 := rfl
  rw [h] at h1
  exact absurd h1 (by decide)

/-- C6: if the ingest endpoint URL or the token is unset or empty, the
orchestration exits with status 1 having produced no events at all — in
particular the external collection mechanism was never started. -/
theorem missing_config_exits_before_collection (url token : Option String)
    (spawn : SpawnResult) (net : HttpOutcome)
    (h : truthy url = false ∨ truthy token = false) :
    main_run url token spawn net = (1, []) ∧
    Event.spawnCollector ∉ (main_run url token spawn net).2 := by
  have hmain : main_run url token spawn net = (1, []) := by
    rcases h with h | h
    · simp [main_run, h]
    · cases hu : truthy url with
      | false => simp [main_run, hu]
      | true => simp [main_run, hu, h]
  rw [hmain]
  exact ⟨rfl, by simp⟩

/-- Concrete instantiation of `missing_config_exits_before_collection`:
`INGEST_URL` unset. -/
theorem missing_config_exits_before_collection_witness :
    main_run none (some "secret") .fileNotFound (.transportError "unused") = (1, []) ∧
    Event.spawnCollector ∉
      (main_run none (some "secret") .fileNotFound (.transportError "unused")).2 :=
  missing_config_exits_before_collection none (some "secret") _ _ (Or.inl rfl)

/-- C9: called with the empty record list and both credentials present,
the Deliverer still performs exactly one HTTP request, whose JSON body
binds the field `tweets` to the empty list. -/
theorem empty_batch_single_request (u t : String) (net : HttpOutcome)
    (hu : u ≠ "") (ht : t ≠ "") :
    (push_tweets (some u) (some t) [] net).events =
      [Event.httpRequest u t (.obj [("tweets", .arr [])])] :=
  push_tweets_events u t [] net hu ht

/-- Concrete instantiation of `empty_batch_single_request`. -/
theorem empty_batch_single_request_witness :
    (push_tweets (some "https://app.example/api/ingest") (some "secret") []
        (.response 200 (some (.obj [("inserted", .num 0)])))).events =
      [Event.httpRequest "https://app.example/api/ingest" "secret"
        (.obj [("tweets", .arr [])])] :=
  empty_batch_single_request _ _ _ (by decide) (by decide)

/-- C7: when collection yields a non-empty record list and the single
delivery attempt fails — as a timeout or any other transport failure does,
and as every 400-599 response does — the run exits with status 1 having
performed exactly one HTTP request: no retries. -/
theorem delivery_failure_one_attempt (url token : Option String)
    (spawn : SpawnResult) (net : HttpOutcome)
    (hu : truthy url = true) (ht : truthy token = true)
    (hn : run_snscrape spawn ≠ [])
    (hf : (push_tweets url token (run_snscrape spawn) net).ok = false) :
    (main_run url token spawn net).1 = 1 ∧
    ((main_run url token spawn net).2.filter isRequest).length = 1 := by
  obtain ⟨u, rfl, hu'⟩ := truthy_eq_true hu
  obtain ⟨s, rfl, hs'⟩ := truthy_eq_true ht
  have hempty : (run_snscrape spawn).isEmpty = false := by
    simp [List.isEmpty_iff, hn]
  have hev := push_tweets_events u s (run_snscrape spawn) net hu' hs'
  refine ⟨?_, ?_⟩ <;>
    simp [main_run, hu, ht, hempty, hf, hev, isRequest]

/-- The five valid lines of the C7 scenario. -/
def c7Lines : List (Option JValue) :=
  [some (.obj [("id", .num 1), ("date", .str "2025-10-23")]),
   some (.obj [("id", .num 2), ("date", .str "2025-10-24")]),
   some (.obj [("id", .num 3), ("date", .str "2025-10-25")]),
   some (.obj [("id", .num 4), ("date", .str "2025-10-26")]),
   some (.obj [("id", .num 5), ("date", .str "2025-10-27")])]

/-- Concrete instantiation of `delivery_failure_one_attempt`: five
collected records and a delivery that times out. -/
theorem delivery_failure_one_attempt_witness :
    (main_run (some "https://app.example/api/ingest") (some "secret")
      (.proc c7Lines "" 0) (.transportError "timeout")).1 = 1 ∧
    ((main_run (some "https://app.example/api/ingest") (some "secret")
      (.proc c7Lines "" 0) (.transportError "timeout")).2.filter isRequest).length = 1 := by
  refine delivery_failure_one_attempt _ _ _ _ rfl rfl ?_ rfl
  intro h
  have h1 : (run_snscrape (.proc c7Lines "" 0)).length = 5 := by decide
  rw [h] at h1
  exact absurd h1 (by decide)

/-- The claim "success for every 2xx status" fails on the code: a 200
response whose body is the valid JSON value `null` makes `result.get`
raise `AttributeError`, the catch-all handler absorbs it, and
`push_tweets` returns failure. -/
theorem deliverer_2xx_nonobject_body_fails :
    (push_tweets (some "https://app.example/api/ingest") (some "secret") []
      (.response 200 (some .null))).ok = false := rfl

/-- C3 (amended): with credentials present, the Deliverer returns success
iff the response status escapes `raise_for_status` (outside 400-599) and
the body parses as a JSON object; success then surfaces the `inserted`
field of that object, defaulting to 0 when it is absent, without treating
absence as failure.  Transport errors, 400-599 statuses, unparseable
bodies and non-object bodies return failure, and no exception propagates
to the caller. -/
theorem deliverer_status_semantics (url token : String) (tweets : List Tweet)
    (net : HttpOutcome) (hu : url ≠ "") (ht : token ≠ "") :
    ((push_tweets (some url) (some token) tweets net).ok = true ↔
      ∃ status fields, net = .response status (some (.obj fields)) ∧
        ¬(400 ≤ status ∧ status < 600)) ∧
    (∀ status fields, net = .response status (some (.obj fields)) →
      ¬(400 ≤ status ∧ status < 600) →
      (push_tweets (some url) (some token) tweets net).reported =
        some ((fields.lookup "inserted").getD (.num 0))) := by
  have hcond : ¬(url = "" ∨ token = "") := by simp [hu, ht]
  cases net with
  | transportError msg =>
    refine ⟨?_, ?_⟩
    · simp [push_tweets, hcond]
    · intro s f heq hns
      exact absurd heq (by simp)
  | response status body =>
    by_cases hsf : 400 ≤ status ∧ status < 600
    · refine ⟨?_, ?_⟩
      · constructor
        · intro hok
          exact absurd hok (by simp [push_tweets, hcond, hsf])
        · rintro ⟨s, f, heq, hns⟩
          obtain ⟨h1, -⟩ : status = s ∧ body = some (.obj f) := by
            injection heq with a b
            exact ⟨a, b⟩
          rw [h1] at hsf
          exact absurd hsf hns
      · intro s f heq hns
        obtain ⟨h1, -⟩ : status = s ∧ body = some (.obj f) := by
          injection heq with a b
          exact ⟨a, b⟩
        rw [h1] at hsf
        exact absurd hsf hns
    · cases body with
      | none =>
        refine ⟨?_, ?_⟩
        · constructor
          · intro hok
            exact absurd hok (by simp [push_tweets, hcond, hsf])
          · rintro ⟨s, f, heq, -⟩
            obtain ⟨-, h2⟩ : status = s ∧ (none : Option JValue) = some (.obj f) := by
              injection heq with a b
              exact ⟨a, b⟩
            exact absurd h2 (by simp)
        · intro s f heq hns
          obtain ⟨-, h2⟩ : status = s ∧ (none : Option JValue) = some (.obj f) := by
            injection heq with a b
            exact ⟨a, b⟩
          exact absurd h2 (by simp)
      | some v =>
        cases v with
        | obj fields =>
          refine ⟨?_, ?_⟩
          · constructor
            · intro _
              exact ⟨status, fields, rfl, hsf⟩
            · intro _
              simp [push_tweets, hcond, hsf]
          · intro s f heq hns
            obtain ⟨-, h2⟩ : status = s ∧
                (some (JValue.obj fields) : Option JValue) = some (.obj f) := by
              injection heq with a b
              exact ⟨a, b⟩
            obtain rfl : fields = f := by
              injection (Option.some.inj h2) with a
            simp [push_tweets, hcond, hsf]
        | null =>
          refine ⟨?_, ?_⟩
          · constructor
            · intro hok
              exact absurd hok (by simp [push_tweets, hcond, hsf])
            · rintro ⟨s, f, heq, -⟩
              obtain ⟨-, h2⟩ : status = s ∧
                  (some JValue.null : Option JValue) = some (.obj f) := by
                injection heq with a b
                exact ⟨a, b⟩
              exact absurd (Option.some.inj h2) (by simp)
          · intro s f heq hns
            obtain ⟨-, h2⟩ : status = s ∧
                (some JValue.null : Option JValue) = some (.obj f) := by
              injection heq with a b
              exact ⟨a, b⟩
            exact absurd (Option.some.inj h2) (by simp)
        | bool b =>
          refine ⟨?_, ?_⟩
          · constructor
            · intro hok
              exact absurd hok (by simp [push_tweets, hcond, hsf])
            · rintro ⟨s, f, heq, -⟩
              obtain ⟨-, h2⟩ : status = s ∧
                  (some (JValue.bool b) : Option JValue) = some (.obj f) := by
                injection heq with a b2
                exact ⟨a, b2⟩
              exact absurd (Option.some.inj h2) (by simp)
          · intro s f heq hns
            obtain ⟨-, h2⟩ : status = s ∧
                (some (JValue.bool b) : Option JValue) = some (.obj f) := by
              injection heq with a b2
              exact ⟨a, b2⟩
            exact absurd (Option.some.inj h2) (by simp)
        | num n =>
          refine ⟨?_, ?_⟩
          · constructor
            · intro hok
              exact absurd hok (by simp [push_tweets, hcond, hsf])
            · rintro ⟨s, f, heq, -⟩
              obtain ⟨-, h2⟩ : status = s ∧
                  (some (JValue.num n) : Option JValue) = some (.obj f) := by
                injection heq with a b
                exact ⟨a, b⟩
              exact absurd (Option.some.inj h2) (by simp)
          · intro s f heq hns
            obtain ⟨-, h2⟩ : status = s ∧
                (some (JValue.num n) : Option JValue) = some (.obj f) := by
              injection heq with a b
              exact ⟨a, b⟩
            exact absurd (Option.some.inj h2) (by simp)
        | str s0 =>
          refine ⟨?_, ?_⟩
          · constructor
            · intro hok
              exact absurd hok (by simp [push_tweets, hcond, hsf])
            · rintro ⟨s, f, heq, -⟩
              obtain ⟨-, h2⟩ : status = s ∧
                  (some (JValue.str s0) : Option JValue) = some (.obj f) := by
                injection heq with a b
                exact ⟨a, b⟩
              exact absurd (Option.some.inj h2) (by simp)
          · intro s f heq hns
            obtain ⟨-, h2⟩ : status = s ∧
                (some (JValue.str s0) : Option JValue) = some (.obj f) := by
              injection heq with a b
              exact ⟨a, b⟩
            exact absurd (Option.some.inj h2) (by simp)
        | arr xs =>
          refine ⟨?_, ?_⟩
          · constructor
            · intro hok
              exact absurd hok (by simp [push_tweets, hcond, hsf])
            · rintro ⟨s, f, heq, -⟩
              obtain ⟨-, h2⟩ : status = s ∧
                  (some (JValue.arr xs) : Option JValue) = some (.obj f) := by
                injection heq with a b
                exact ⟨a, b⟩
              exact absurd (Option.some.inj h2) (by simp)
          · intro s f heq hns
            obtain ⟨-, h2⟩ : status = s ∧
                (some (JValue.arr xs) : Option JValue) = some (.obj f) := by
              injection heq with a b
              exact ⟨a, b⟩
            exact absurd (Option.some.inj h2) (by simp)

/-- Concrete instantiation of `deliverer_status_semantics`: a 201 response
whose body is a JSON object carrying `inserted = 3`. -/
theorem deliverer_status_semantics_witness :
    ((push_tweets (some "https://app.example/api/ingest") (some "secret") []
        (.response 201 (some (.obj [("inserted", .num 3)])))).ok = true ↔
      ∃ status fields,
        HttpOutcome.response 201 (some (.obj [("inserted", .num 3)]))
          = .response status (some (.obj fields)) ∧
        ¬(400 ≤ status ∧ status < 600)) ∧
    (∀ status fields,
      HttpOutcome.response 201 (some (.obj [("inserted", .num 3)]))
        = .response status (some (.obj fields)) →
      ¬(400 ≤ status ∧ status < 600) →
      (push_tweets (some "https://app.example/api/ingest") (some "secret") []
        (.response 201 (some (.obj [("inserted", .num 3)])))).reported =
        some ((fields.lookup "inserted").getD (.num 0))) :=
  deliverer_status_semantics "https://app.example/api/ingest" "secret" []
    (.response 201 (some (.obj [("inserted", .num 3)]))) (by decide) (by decide)

end WeatherUpdates
